import Mathlib

/-!
A shallow embedding of the `gcp-sa-key-checker` program, covering the
signal-based classification engine (`sakey.go` / `keytype.go` /
`validity.go`), the parallel fetch orchestrator (`keys.go` /
`parallel.go`) and the public certificate parser (`sakey_x509.go`),
together with theorems about the behaviour of those functions.

Modelling conventions:
* Go `time.Time` instants are Unix nanoseconds (`Int`); `time.Duration`
  values are nanosecond counts (`Int`).  `time.Time.Sub` is exact
  subtraction here: its int64 saturation cannot change any branch of the
  validity check, because every constant it is compared against is far
  below the saturation bound.
* Go strings are Lean `String`s; indexing/length are in characters
  (service-account identifiers and common names are ASCII, where the
  two coincide with Go's byte-oriented view).
* A Go `panic` is modelled as `Except.error` carrying the panic text.
* Functions that receive values from the network (HTTP fetch, the IAM
  API, `pem.Decode`, `x509.ParseCertificate`) take those collaborators
  as explicit function arguments.
* The concurrent fan-out of `parllelMap` [sic] is determinised to input
  order: each spawned task writes only its own slot (and, on failure,
  appends its own principal to the bad list), so the per-slot results
  and the membership of the bad list are independent of interleaving.
-/

namespace SAKeyChecker

deriving instance DecidableEq for Except

/-! ## keytype.go: muxed key kinds and precedence -/

def GOOGLE_PROVIDED_SYSTEM_MANAGED : String := "GOOGLE_PROVIDED/SYSTEM_MANAGED"

def GOOGLE_PROVIDED_USER_MANAGED : String := "GOOGLE_PROVIDED/USER_MANAGED"

def USER_PROVIDED_USER_MANAGED : String := "USER_PROVIDED/USER_MANAGED"

/-- Precedence order for key kinds: signals for earlier entries take
precedence over signals for later ones. -/
def keyKindPrecedence : List String :=
  [USER_PROVIDED_USER_MANAGED,
   GOOGLE_PROVIDED_USER_MANAGED,
   GOOGLE_PROVIDED_SYSTEM_MANAGED]

/-- Go `slices.Index`: index of the first occurrence of `x`, or `-1`. -/
def slicesIndex (xs : List String) (x : String) : Int :=
  match xs with
  | [] => -1
  | y :: ys =>
    if y = x then 0
    else
      let r := slicesIndex ys x
      if r = -1 then -1 else r + 1

/-- `keyTypeAndOriginToMuxedKeyKind` from keytype.go; the Go function
panics (modelled as `Except.error`) on a combination outside the
precedence list. -/
def keyTypeAndOriginToMuxedKeyKind (keyType : String) (keyOrigin : String) :
    Except String String :=
  let res := keyOrigin ++ "/" ++ keyType
  if slicesIndex keyKindPrecedence res = -1 then
    Except.error ("Invalid key type and origin combination: " ++ res)
  else
    Except.ok res

/-! ## validity.go: duration constants (nanoseconds) and GAIA pattern -/

def Minute : Int := 60 * 1000000000

def Hour : Int := 60 * Minute

def googleProvidedSystemManagedValidityV1 : Int := Hour * 396 + Minute * 15

def googleProvidedSystemManagedValidityV2Min : Int := Hour * 24 * 365 * 2

def googleProvidedSystemManagedValidityV2Max : Int := Hour * 24 * (365 * 2 + 31)

/-- `time.Date(9999, December, 31, 23, 59, 59, 0, UTC)` as Unix nanoseconds. -/
def defaultMaxAfter : Int := 253402300799 * 1000000000

def legacyGoogleProvidedUserManagedValidity : Int := 87600 * Hour

def serviceAccountKeyExpiryHours : List Int :=
  [Hour * 1, Hour * 8, Hour * 24, Hour * 168,
   Hour * 336, Hour * 720, Hour * 1440, Hour * 2160]

/-- The regular expression `^1[0-9]{20}$` (`GAIA_ID`), as a decidable
match on the whole string. -/
def GAIA_ID_matches (s : String) : Bool :=
  match s.data with
  | '1' :: rest => rest.length == 20 && rest.all (fun c => c.isDigit)
  | _ => false

def IAMReadRequestsPerMinutePerProjectMax : Int := 5500

def MaxInflightX509 : Int := 64

/-! ## Certificate data model (the `x509.Certificate` fields the program reads) -/

inductive PublicKeyAlgorithm where
  | RSA
  | DSA
  | ECDSA
  | Ed25519
  | UnknownPublicKeyAlgorithm
deriving DecidableEq

inductive SignatureAlgorithm where
  | SHA1WithRSA
  | SHA256WithRSA
  | ECDSAWithSHA256
  | OtherSignatureAlgorithm
deriving DecidableEq

/-- The dynamic value in the certificate's `PublicKey` field.  The Go
code performs the unchecked type assertion `.(*rsa.PublicKey)` on it;
an RSA key carries its modulus `N` (a big integer, here a `Nat`). -/
inductive PublicKey where
  | rsa (N : Nat)
  | nonRSA
deriving DecidableEq

/-- Binary length of `n` with structural fuel recursion (fuel `n`
suffices, since the bit length of `n` never exceeds `n`). -/
def bitLenGo : Nat → Nat → Nat
  | _, 0 => 0
  | 0, _ + 1 => 0
  | fuel + 1, n + 1 => bitLenGo fuel ((n + 1) / 2) + 1

/-- `big.Int.BitLen` of the modulus: the length of the absolute value
in bits (0 for 0). -/
def bigIntBitLen (n : Nat) : Nat := bitLenGo n n

inductive ExtKeyUsage where
  | ExtKeyUsageClientAuth
  | ExtKeyUsageServerAuth
  | ExtKeyUsageAny
  | OtherExtKeyUsage
deriving DecidableEq

/-- `x509.KeyUsageDigitalSignature` (bit 0 of the KeyUsage bitmask). -/
def KeyUsageDigitalSignature : Int := 1

structure PkixName where
  commonName : String
deriving DecidableEq

structure Certificate where
  notBefore : Int
  notAfter : Int
  subject : PkixName
  issuer : PkixName
  publicKeyAlgorithm : PublicKeyAlgorithm
  signatureAlgorithm : SignatureAlgorithm
  publicKey : PublicKey
  extKeyUsage : List ExtKeyUsage
  keyUsage : Int
  serialNumber : Nat
deriving DecidableEq

/-! ## sakey.go: signals and the per-key checks -/

structure Signal where
  keyKind : String
  explanation : String
deriving DecidableEq

structure SAKey where
  serviceAccount : String
  cert : Certificate
  signals : List Signal
  keyKind : String
deriving DecidableEq

def NewSAKey (serviceAccount : String) (cert : Certificate) : SAKey :=
  { serviceAccount := serviceAccount
    cert := cert
    signals := []
    keyKind := "" }

def CheckValidityPeriod (k : SAKey) : SAKey :=
  let validityWindow := k.cert.notAfter - k.cert.notBefore

  if k.cert.notAfter = defaultMaxAfter then
    { k with signals := k.signals ++
        [⟨GOOGLE_PROVIDED_USER_MANAGED,
          "Certificate has a NotAfter date of " ++ toString k.cert.notAfter⟩] }
  else if validityWindow = legacyGoogleProvidedUserManagedValidity then
    { k with signals := k.signals ++
        [⟨GOOGLE_PROVIDED_USER_MANAGED,
          "Certificate has a legacy 10y validity period of " ++ toString validityWindow⟩] }
  else if validityWindow = googleProvidedSystemManagedValidityV1 then
    { k with signals := k.signals ++
        [⟨GOOGLE_PROVIDED_SYSTEM_MANAGED,
          "Certificate has standard validity period of " ++ toString validityWindow⟩] }
  else if validityWindow ∈ serviceAccountKeyExpiryHours then
    { k with signals := k.signals ++
        [⟨GOOGLE_PROVIDED_USER_MANAGED,
          "Certificate has a validity period in constraints/iam.serviceAccountKeyExpiryHours of "
            ++ toString validityWindow⟩] }
  else if googleProvidedSystemManagedValidityV2Min < validityWindow ∧
      validityWindow < googleProvidedSystemManagedValidityV2Max then
    { k with signals := k.signals ++
        [⟨GOOGLE_PROVIDED_SYSTEM_MANAGED,
          "Certificate has a validity period of " ++ toString validityWindow ++
            " which is between the V2 bounds"⟩] }
  else
    { k with signals := k.signals ++
        [⟨USER_PROVIDED_USER_MANAGED,
          "Certificate does not have a standard GCP validity window: " ++
            toString validityWindow⟩] }

def CheckExtensions (k : SAKey) : SAKey :=
  let k1 :=
    if k.cert.extKeyUsage.length ≠ 1 ∨
        k.cert.extKeyUsage.getD 0 ExtKeyUsage.OtherExtKeyUsage ≠
          ExtKeyUsage.ExtKeyUsageClientAuth then
      { k with signals := k.signals ++
          [⟨USER_PROVIDED_USER_MANAGED, "Certificate has unexpected ExtendedKeyUsage"⟩] }
    else k

  if k.cert.keyUsage ≠ KeyUsageDigitalSignature then
    { k1 with signals := k1.signals ++
        [⟨USER_PROVIDED_USER_MANAGED, "Certificate has unexpected KeyUsage"⟩] }
  else k1

/-- `strings.Replace(s, "@", ".", 1)` on the character list. -/
def replaceFirstAtWithDot : List Char → List Char
  | [] => []
  | c :: cs => if c = '@' then '.' :: cs else c :: replaceFirstAtWithDot cs

def stringsReplaceAtDot (s : String) : String := ⟨replaceFirstAtWithDot s.data⟩

def strLen (s : String) : Nat := s.data.length

def strTake (s : String) (n : Nat) : String := ⟨s.data.take n⟩

/-- The `checkName` closure from `checkNames`, with the captured
`expectedName`/`truncatedName` made explicit parameters. -/
def checkNameGo (expectedName truncatedName : String) (k : SAKey) (t v : String) : SAKey :=
  if GAIA_ID_matches v then
    { k with signals := k.signals ++
        [⟨GOOGLE_PROVIDED_USER_MANAGED, t ++ " " ++ v ++ " is a GAIA_ID"⟩] }
  else if v = expectedName then
    { k with signals := k.signals ++
        [⟨GOOGLE_PROVIDED_SYSTEM_MANAGED,
          t ++ " " ++ v ++ " matches expected name " ++ expectedName⟩] }
  else if truncatedName ≠ "" ∧ v = truncatedName then
    { k with signals := k.signals ++
        [⟨GOOGLE_PROVIDED_SYSTEM_MANAGED,
          t ++ " " ++ v ++ " matches expected truncated name " ++ truncatedName⟩] }
  else
    { k with signals := k.signals ++
        [⟨USER_PROVIDED_USER_MANAGED,
          t ++ " " ++ v ++ " does not match any expected name " ++ expectedName⟩] }

def checkNames (k : SAKey) : SAKey :=
  let expectedName := stringsReplaceAtDot k.serviceAccount
  -- 64 is the maximum length for a CN
  let truncatedName := if 64 ≤ strLen expectedName then strTake expectedName 64 else ""
  checkNameGo expectedName truncatedName
    (checkNameGo expectedName truncatedName k "SubjectCN" k.cert.subject.commonName)
    "IssuerCN" k.cert.issuer.commonName

/-- Panic text for the failed type assertion `.(*rsa.PublicKey)` in `checkCrypto`. -/
def rsaTypeAssertionPanic : String :=
  "interface conversion: certificate public key is not *rsa.PublicKey"

/-- `checkCrypto` performs `k.cert.PublicKey.(*rsa.PublicKey)` without a
comma-ok guard, so on a non-RSA public key the Go code panics; the panic
is the `Except.error` branch. -/
def checkCrypto (k : SAKey) : Except String SAKey :=
  let k1 :=
    if k.cert.publicKeyAlgorithm ≠ PublicKeyAlgorithm.RSA then
      { k with signals := k.signals ++
          [⟨USER_PROVIDED_USER_MANAGED, "Public key algorithm is not RSA"⟩] }
    else k

  let k2 :=
    if k.cert.signatureAlgorithm ≠ SignatureAlgorithm.SHA1WithRSA then
      { k1 with signals := k1.signals ++
          [⟨USER_PROVIDED_USER_MANAGED, "Signature algorithm is not SHA1WithRSA"⟩] }
    else k1

  match k.cert.publicKey with
  | PublicKey.nonRSA => Except.error rsaTypeAssertionPanic
  | PublicKey.rsa n =>
    if bigIntBitLen n = 1024 then
      Except.ok { k2 with signals := k2.signals ++
          [⟨GOOGLE_PROVIDED_USER_MANAGED, "Public key length is 1024"⟩] }
    else if bigIntBitLen n ≠ 2048 then
      Except.ok { k2 with signals := k2.signals ++
          [⟨USER_PROVIDED_USER_MANAGED,
            "Public key length " ++ toString (bigIntBitLen n) ++ " is not 2048 or 1024"⟩] }
    else
      Except.ok k2

/-- The signal appended by one branch of `CheckValidityPeriod`
(the same if-chain, with the receiver factored out). -/
def validitySignal (cert : Certificate) : Signal :=
  let validityWindow := cert.notAfter - cert.notBefore
  if cert.notAfter = defaultMaxAfter then
    ⟨GOOGLE_PROVIDED_USER_MANAGED,
     "Certificate has a NotAfter date of " ++ toString cert.notAfter⟩
  else if validityWindow = legacyGoogleProvidedUserManagedValidity then
    ⟨GOOGLE_PROVIDED_USER_MANAGED,
     "Certificate has a legacy 10y validity period of " ++ toString validityWindow⟩
  else if validityWindow = googleProvidedSystemManagedValidityV1 then
    ⟨GOOGLE_PROVIDED_SYSTEM_MANAGED,
     "Certificate has standard validity period of " ++ toString validityWindow⟩
  else if validityWindow ∈ serviceAccountKeyExpiryHours then
    ⟨GOOGLE_PROVIDED_USER_MANAGED,
     "Certificate has a validity period in constraints/iam.serviceAccountKeyExpiryHours of "
       ++ toString validityWindow⟩
  else if googleProvidedSystemManagedValidityV2Min < validityWindow ∧
      validityWindow < googleProvidedSystemManagedValidityV2Max then
    ⟨GOOGLE_PROVIDED_SYSTEM_MANAGED,
     "Certificate has a validity period of " ++ toString validityWindow ++
       " which is between the V2 bounds"⟩
  else
    ⟨USER_PROVIDED_USER_MANAGED,
     "Certificate does not have a standard GCP validity window: " ++ toString validityWindow⟩

/-- The signals appended by `CheckExtensions` (the same two independent
conditions, with the receiver factored out). -/
def extSignals (cert : Certificate) : List Signal :=
  (if cert.extKeyUsage.length ≠ 1 ∨
      cert.extKeyUsage.getD 0 ExtKeyUsage.OtherExtKeyUsage ≠
        ExtKeyUsage.ExtKeyUsageClientAuth then
    [⟨USER_PROVIDED_USER_MANAGED, "Certificate has unexpected ExtendedKeyUsage"⟩]
  else []) ++
  (if cert.keyUsage ≠ KeyUsageDigitalSignature then
    [⟨USER_PROVIDED_USER_MANAGED, "Certificate has unexpected KeyUsage"⟩]
  else [])

/-- The signal appended by one branch of the `checkName` closure. -/
def nameSignal (expectedName truncatedName t v : String) : Signal :=
  if GAIA_ID_matches v then
    ⟨GOOGLE_PROVIDED_USER_MANAGED, t ++ " " ++ v ++ " is a GAIA_ID"⟩
  else if v = expectedName then
    ⟨GOOGLE_PROVIDED_SYSTEM_MANAGED,
     t ++ " " ++ v ++ " matches expected name " ++ expectedName⟩
  else if truncatedName ≠ "" ∧ v = truncatedName then
    ⟨GOOGLE_PROVIDED_SYSTEM_MANAGED,
     t ++ " " ++ v ++ " matches expected truncated name " ++ truncatedName⟩
  else
    ⟨USER_PROVIDED_USER_MANAGED,
     t ++ " " ++ v ++ " does not match any expected name " ++ expectedName⟩

/-- The two signals appended by `checkNames`. -/
def namePair (sa : String) (cert : Certificate) : List Signal :=
  let expectedName := stringsReplaceAtDot sa
  let truncatedName := if 64 ≤ strLen expectedName then strTake expectedName 64 else ""
  [nameSignal expectedName truncatedName "SubjectCN" cert.subject.commonName,
   nameSignal expectedName truncatedName "IssuerCN" cert.issuer.commonName]

/-- The signals appended by `checkCrypto`, or the type-assertion panic. -/
def cryptoSignals (cert : Certificate) : Except String (List Signal) :=
  let l1 :=
    if cert.publicKeyAlgorithm ≠ PublicKeyAlgorithm.RSA then
      [(⟨USER_PROVIDED_USER_MANAGED, "Public key algorithm is not RSA"⟩ : Signal)]
    else []
  let l2 :=
    if cert.signatureAlgorithm ≠ SignatureAlgorithm.SHA1WithRSA then
      [(⟨USER_PROVIDED_USER_MANAGED, "Signature algorithm is not SHA1WithRSA"⟩ : Signal)]
    else []
  match cert.publicKey with
  | PublicKey.nonRSA => Except.error rsaTypeAssertionPanic
  | PublicKey.rsa n =>
    if bigIntBitLen n = 1024 then
      Except.ok (l1 ++ l2 ++ [⟨GOOGLE_PROVIDED_USER_MANAGED, "Public key length is 1024"⟩])
    else if bigIntBitLen n ≠ 2048 then
      Except.ok (l1 ++ l2 ++
        [⟨USER_PROVIDED_USER_MANAGED,
          "Public key length " ++ toString (bigIntBitLen n) ++ " is not 2048 or 1024"⟩])
    else
      Except.ok (l1 ++ l2)

/-- All signals appended by one run of `check` (names, then crypto,
then validity, then extensions), or the crypto panic. -/
def allSignals (sa : String) (cert : Certificate) : Except String (List Signal) :=
  (cryptoSignals cert).map fun cs =>
    namePair sa cert ++ cs ++ [validitySignal cert] ++ extSignals cert

def check (k : SAKey) : Except String SAKey :=
  match checkCrypto (checkNames k) with
  | Except.error e => Except.error e
  | Except.ok k1 => Except.ok (CheckExtensions (CheckValidityPeriod k1))

/-- Panic text for the empty-signal-list invariant in `determineKeyKind`. -/
def noSignalsPanic : String := "No signals found for key"

/-- One iteration of the loop body of `determineKeyKind`: take the first
signal's kind when the result is still the zero value, and afterwards
replace the result whenever a signal's kind is strictly higher in
`keyKindPrecedence`. -/
def resolveStep (res : String) (signal : Signal) : String :=
  if res = "" then signal.keyKind
  else if slicesIndex keyKindPrecedence signal.keyKind <
      slicesIndex keyKindPrecedence res then signal.keyKind
  else res

/-- The precedence-resolution loop of `determineKeyKind` (the part after
the empty-list check), starting from the zero value of `res`. -/
def resolveLoop (signals : List Signal) : String :=
  signals.foldl resolveStep ""

def determineKeyKind (k : SAKey) : Except String (SAKey × String) :=
  match check k with
  | Except.error e => Except.error e
  | Except.ok k1 =>
    if k1.signals.length = 0 then Except.error noSignalsPanic
    else
      let res := resolveLoop k1.signals
      Except.ok ({ k1 with keyKind := res }, res)

/-! ## parallel.go / keys.go: the fan-out orchestrator -/

/-- `iam.ServiceAccountKey` (the fields the program reads). -/
structure ServiceAccountKey where
  name : String
  keyOrigin : String
  keyType : String
deriving DecidableEq

/-- `map[string]*iam.ServiceAccountKey`, as an association list. -/
abbrev ServiceAccountKeys := List (String × ServiceAccountKey)

/-- `map[string]*x509.Certificate`, as an association list. -/
abbrev ServiceAccountCerts := List (String × Certificate)

structure KeyCollection where
  serviceAccountIDs : List String
  observedKeys : List ServiceAccountCerts
  groundTruthKeys : List ServiceAccountKeys
  badSAs : List String

def NewKeyCollection (serviceAccountIDs : List String) : KeyCollection :=
  { serviceAccountIDs := serviceAccountIDs
    observedKeys := []
    groundTruthKeys := []
    badSAs := [] }

def isBadSA (k : KeyCollection) (sa : String) : Bool := k.badSAs.contains sa

/-- `errors.Join`: `none` when every error is nil, otherwise the
newline-joined non-nil error messages. -/
def errorsJoin (errs : List (Option String)) : Option String :=
  match errs.filterMap id with
  | [] => none
  | es => some (String.intercalate "\n" es)

/-- `parllelMap` [sic]: run `f` over every item (concurrently in Go, with
each task writing result and error into its own slot), join the errors,
and return the positional results only when every task's error was nil. -/
def parllelMap {I O : Type} (items : List I) (f : I → O × Option String) :
    Except String (List O) :=
  let res := items.map fun x => (f x).1
  let errs := items.map fun x => (f x).2
  match errorsJoin errs with
  | some e => Except.error e
  | none => Except.ok res

/-- The task body of `FetchObservedKeys` for one principal: a fetch
failure is logged, the principal is marked bad (second component), and
the task resolves with an empty result and a nil error.  The bounded
inflight semaphore only limits concurrency, and acquiring it on a
background context cannot fail, so it is elided. -/
def fetchObservedTask (fetch : String → Except String ServiceAccountCerts)
    (sa : String) : (ServiceAccountCerts × Option String) × Option String :=
  match fetch sa with
  | Except.error _e => (([], some sa), none)
  | Except.ok res => ((res, none), none)

/-- `FetchObservedKeys`, with the HTTP certificate fetch
(`getServiceAccountKeyCerts`) passed in as a collaborator.  The bad-SA
markers produced by the tasks are collected into `badSAs` (in input
order; the set is interleaving-independent). -/
def FetchObservedKeys (fetch : String → Except String ServiceAccountCerts)
    (k : KeyCollection) : Except String KeyCollection :=
  let k1 := { k with observedKeys := List.replicate k.serviceAccountIDs.length [] }
  match parllelMap k1.serviceAccountIDs (fetchObservedTask fetch) with
  | Except.error e => Except.error ("error getting keys from GCP API: " ++ e)
  | Except.ok outs =>
    Except.ok { k1 with
      observedKeys := outs.map fun o => o.1
      badSAs := k1.badSAs ++ outs.filterMap fun o => o.2 }

/-- The task body of `FetchGroundTruthKeys` for one principal: a
principal already marked bad short-circuits to an empty result without
calling the API; otherwise the IAM call's result and error are returned
as-is.  The shared rate limiter's `Wait` on a background context cannot
fail and is elided. -/
def fetchGroundTruthTask (getKeys : String → Except String ServiceAccountKeys)
    (badSAs : List String) (sa : String) : ServiceAccountKeys × Option String :=
  if badSAs.contains sa then ([], none)
  else
    match getKeys sa with
    | Except.error e => ([], some e)
    | Except.ok res => (res, none)

/-- `FetchGroundTruthKeys`, with the IAM key-listing call
(`getServiceAccountKeys`) passed in as a collaborator. -/
def FetchGroundTruthKeys (getKeys : String → Except String ServiceAccountKeys)
    (k : KeyCollection) : Except String KeyCollection :=
  let k1 := { k with groundTruthKeys := List.replicate k.serviceAccountIDs.length [] }
  match parllelMap k1.serviceAccountIDs (fetchGroundTruthTask getKeys k1.badSAs) with
  | Except.error e => Except.error ("error getting keys from GCP API: " ++ e)
  | Except.ok res => Except.ok { k1 with groundTruthKeys := res }

/-! ## sakey_x509.go: parsing one principal's public certificates -/

/-- `pem.Block` (the fields the program reads). -/
structure PemBlock where
  blockType : String
  headers : List (String × String)
  bytes : List Nat
deriving DecidableEq

/-- The body of the per-key loop in `getServiceAccountKeyCerts`:
decode the PEM value, reject trailing data, non-CERTIFICATE block types
and headers, then parse the certificate. -/
def processPemKey (pemDecode : String → Option (PemBlock × List Nat))
    (parseCertificate : List Nat → Except String Certificate)
    (v : String) : Except String Certificate :=
  match pemDecode v with
  | none => Except.error "error decoding PEM block"
  | some (block, rest) =>
    if rest.length > 0 then Except.error "error: Extra data after PEM block"
    else if block.blockType ≠ "CERTIFICATE" then
      Except.error ("error: Unexpected PEM block type: " ++ block.blockType ++
        ". Expected CERTIFICATE")
    else if block.headers.length > 0 then
      Except.error "error: unexpected headers in PEM block"
    else
      match parseCertificate block.bytes with
      | Except.error e => Except.error ("error parsing certificate: " ++ e)
      | Except.ok cert => Except.ok cert

/-- The certificate-building loop of `getServiceAccountKeyCerts`, from
the JSON-decoded `map[string]string` onward (the HTTP and JSON steps
already succeeded); returns early with the first entry's error. -/
def buildCerts (pemDecode : String → Option (PemBlock × List Nat))
    (parseCertificate : List Nat → Except String Certificate) :
    List (String × String) → ServiceAccountCerts → Except String ServiceAccountCerts
  | [], certs => Except.ok certs
  | (keyId, v) :: rest, certs =>
    match processPemKey pemDecode parseCertificate v with
    | Except.error e => Except.error e
    | Except.ok cert => buildCerts pemDecode parseCertificate rest (certs ++ [(keyId, cert)])

/-- `getServiceAccountKeyCerts` after a 200-status fetch and JSON
decode of `keys`, with `pem.Decode` and `x509.ParseCertificate` passed
in as collaborators. -/
def getServiceAccountKeyCerts (pemDecode : String → Option (PemBlock × List Nat))
    (parseCertificate : List Nat → Except String Certificate)
    (keys : List (String × String)) : Except String ServiceAccountCerts :=
  buildCerts pemDecode parseCertificate keys []

/-! ## Spec-side descriptions and sample inputs used by the theorems -/

/-- The highest-precedence kind present in a signal list (assuming all
kinds are valid): the reference value the resolver should compute. -/
def overallVerdict (signals : List Signal) : String :=
  if signals.any (fun s => s.keyKind == USER_PROVIDED_USER_MANAGED) then
    USER_PROVIDED_USER_MANAGED
  else if signals.any (fun s => s.keyKind == GOOGLE_PROVIDED_USER_MANAGED) then
    GOOGLE_PROVIDED_USER_MANAGED
  else GOOGLE_PROVIDED_SYSTEM_MANAGED

/-- The name-check verdict as the specification describes it, for one
common-name value `v` against the expected and truncated names. -/
def nameBranchProp (expectedName truncatedName v : String) (s : Signal) : Prop :=
  (GAIA_ID_matches v = true → s.keyKind = GOOGLE_PROVIDED_USER_MANAGED) ∧
  (GAIA_ID_matches v = false → v = expectedName →
    s.keyKind = GOOGLE_PROVIDED_SYSTEM_MANAGED) ∧
  (GAIA_ID_matches v = false → v ≠ expectedName → truncatedName ≠ "" → v = truncatedName →
    s.keyKind = GOOGLE_PROVIDED_SYSTEM_MANAGED) ∧
  (GAIA_ID_matches v = false → v ≠ expectedName → ¬(truncatedName ≠ "" ∧ v = truncatedName) →
    s.keyKind = USER_PROVIDED_USER_MANAGED)

/-- A certificate with Google-standard crypto parameters, matching CNs
and the 396h15m validity period. -/
def sampleSystemManagedCert : Certificate :=
  { notBefore := 0
    notAfter := googleProvidedSystemManagedValidityV1
    subject := ⟨"x.y"⟩
    issuer := ⟨"x.y"⟩
    publicKeyAlgorithm := PublicKeyAlgorithm.RSA
    signatureAlgorithm := SignatureAlgorithm.SHA1WithRSA
    publicKey := PublicKey.rsa 3
    extKeyUsage := [ExtKeyUsage.ExtKeyUsageClientAuth]
    keyUsage := 1
    serialNumber := 7 }

/-- A certificate carrying an elliptic-curve key: its
`publicKeyAlgorithm` is not RSA and its `PublicKey` is not an
`*rsa.PublicKey`. -/
def sampleEcdsaCert : Certificate :=
  { notBefore := 0
    notAfter := googleProvidedSystemManagedValidityV1
    subject := ⟨"x.y"⟩
    issuer := ⟨"x.y"⟩
    publicKeyAlgorithm := PublicKeyAlgorithm.ECDSA
    signatureAlgorithm := SignatureAlgorithm.ECDSAWithSHA256
    publicKey := PublicKey.nonRSA
    extKeyUsage := [ExtKeyUsage.ExtKeyUsageClientAuth]
    keyUsage := 1
    serialNumber := 8 }

/-- A certificate whose subject CN is a GAIA ID and whose NotAfter is
the no-expiry sentinel. -/
def sampleGaiaCert : Certificate :=
  { notBefore := 0
    notAfter := defaultMaxAfter
    subject := ⟨"100000000000000000001"⟩
    issuer := ⟨"x.y"⟩
    publicKeyAlgorithm := PublicKeyAlgorithm.RSA
    signatureAlgorithm := SignatureAlgorithm.SHA1WithRSA
    publicKey := PublicKey.rsa 3
    extKeyUsage := [ExtKeyUsage.ExtKeyUsageClientAuth]
    keyUsage := 1
    serialNumber := 9 }

def c3SampleSignals : List Signal :=
  [⟨GOOGLE_PROVIDED_SYSTEM_MANAGED, "standard period"⟩,
   ⟨USER_PROVIDED_USER_MANAGED, "unexpected KeyUsage"⟩]

/-- A fetch collaborator for the orchestrator witnesses: the principal
`bad1` fails, the rest return one entry. -/
def sampleFetch (sa : String) : Except String ServiceAccountCerts :=
  if sa = "bad1" then Except.error "error: service account not found"
  else Except.ok [("key1", sampleSystemManagedCert)]

/-- An IAM key-listing collaborator for the ground-truth witnesses: the
principal `fail1` fails, the rest return one entry. -/
def sampleGetKeys (sa : String) : Except String ServiceAccountKeys :=
  if sa = "fail1" then Except.error "googleapi: quota exceeded"
  else Except.ok [("key1", ⟨"projects/p/serviceAccounts/" ++ sa ++ "/keys/key1",
    "GOOGLE_PROVIDED", "SYSTEM_MANAGED"⟩)]

/-- A key collection whose ground-truth pass hits one bad principal and
one failing principal. -/
def c6SampleCollection : KeyCollection :=
  { serviceAccountIDs := ["good1", "bad1", "fail1"]
    observedKeys := []
    groundTruthKeys := []
    badSAs := ["bad1"] }

/-- A key collection whose ground-truth pass succeeds. -/
def c6OkCollection : KeyCollection :=
  { serviceAccountIDs := ["good1", "bad1"]
    observedKeys := []
    groundTruthKeys := []
    badSAs := ["bad1"] }

/-- A `pem.Decode` collaborator for the parsing witnesses. -/
def samplePemDecode : String → Option (PemBlock × List Nat) := fun v =>
  if v = "goodpem" then some (⟨"CERTIFICATE", [], [1]⟩, [])
  else if v = "trailing" then some (⟨"CERTIFICATE", [], [1]⟩, [9])
  else none

/-- An `x509.ParseCertificate` collaborator for the parsing witnesses. -/
def sampleParseCertificate : List Nat → Except String Certificate := fun b =>
  if b = [1] then Except.ok sampleSystemManagedCert
  else Except.error "asn1: structure error"

/-! ## Lemmas about the precedence resolver -/

lemma mem_prec_cases {r : String} (h : r ∈ keyKindPrecedence) :
    r = USER_PROVIDED_USER_MANAGED ∨ r = GOOGLE_PROVIDED_USER_MANAGED ∨
      r = GOOGLE_PROVIDED_SYSTEM_MANAGED := by
  simpa [keyKindPrecedence] using h

lemma perm_any {α : Type} {l1 l2 : List α} (p : α → Bool) (h : l1.Perm l2) :
    l1.any p = l2.any p := by
  induction h with
  | nil => rfl
  | cons x h ih => simp [ih]
  | swap x y l => simp [Bool.or_left_comm, Bool.or_comm, Bool.or_assoc]
  | trans h1 h2 ih1 ih2 => rw [ih1, ih2]

/-- `resolveStep` only reads the signal's kind, never its explanation. -/
lemma resolveStep_eq_mk (r : String) (s : Signal) :
    resolveStep r s = resolveStep r ⟨s.keyKind, ""⟩ := rfl

lemma foldl_resolveStep_char (rest : List Signal) :
    ∀ r : String, r ∈ keyKindPrecedence → (∀ s ∈ rest, s.keyKind ∈ keyKindPrecedence) →
      rest.foldl resolveStep r =
        (if (rest.any fun s => s.keyKind == USER_PROVIDED_USER_MANAGED) = true ∨
            r = USER_PROVIDED_USER_MANAGED then USER_PROVIDED_USER_MANAGED
         else if (rest.any fun s => s.keyKind == GOOGLE_PROVIDED_USER_MANAGED) = true ∨
            r = GOOGLE_PROVIDED_USER_MANAGED then GOOGLE_PROVIDED_USER_MANAGED
         else GOOGLE_PROVIDED_SYSTEM_MANAGED) := by
  induction rest with
  | nil =>
    intro r hr _
    rcases mem_prec_cases hr with h | h | h <;> subst h <;> decide
  | cons s rest ih =>
    intro r hr hall
    have hs : s.keyKind ∈ keyKindPrecedence := hall s (List.mem_cons_self _ _)
    have hrest : ∀ t ∈ rest, t.keyKind ∈ keyKindPrecedence := fun t ht =>
      hall t (List.mem_cons_of_mem _ ht)
    have hstep : resolveStep r s ∈ keyKindPrecedence := by
      rw [resolveStep_eq_mk]
      rcases mem_prec_cases hr with h | h | h <;> rcases mem_prec_cases hs with h2 | h2 | h2 <;>
        rw [h, h2] <;> decide
    rw [List.foldl_cons, ih _ hstep hrest]
    rcases mem_prec_cases hr with h | h | h <;> rcases mem_prec_cases hs with h2 | h2 | h2 <;>
      subst h <;>
      cases hU : rest.any (fun s => s.keyKind == USER_PROVIDED_USER_MANAGED) <;>
      cases hG : rest.any (fun s => s.keyKind == GOOGLE_PROVIDED_USER_MANAGED) <;>
      simp only [resolveStep_eq_mk, h2, hU, hG, List.any_cons] <;> decide

lemma resolveLoop_eq_overallVerdict (signals : List Signal) (hne : signals ≠ [])
    (hval : ∀ s ∈ signals, s.keyKind ∈ keyKindPrecedence) :
    resolveLoop signals = overallVerdict signals := by
  match signals, hne with
  | s :: rest, _ =>
    have hs : s.keyKind ∈ keyKindPrecedence := hval s (List.mem_cons_self _ _)
    have hrest : ∀ t ∈ rest, t.keyKind ∈ keyKindPrecedence := fun t ht =>
      hval t (List.mem_cons_of_mem _ ht)
    have h0 : resolveStep "" s = s.keyKind := by simp [resolveStep]
    unfold resolveLoop
    rw [List.foldl_cons, h0, foldl_resolveStep_char rest s.keyKind hs hrest]
    unfold overallVerdict
    rcases mem_prec_cases hs with h2 | h2 | h2 <;>
      cases hU : rest.any (fun s => s.keyKind == USER_PROVIDED_USER_MANAGED) <;>
      cases hG : rest.any (fun s => s.keyKind == GOOGLE_PROVIDED_USER_MANAGED) <;>
      simp only [h2, hU, hG, List.any_cons] <;> decide

/-! ## C3: the precedence resolver -/

/-- C3: for every non-empty signal list (with kinds in the closed kind
enumeration, as every signal the engine builds is), the precedence
resolver loop of `determineKeyKind` returns the kind with the earliest
position in `keyKindPrecedence` among all signals' kinds, and the result
is invariant under any permutation of the input list. -/
theorem C3_resolver_earliest_and_perm_invariant (signals : List Signal)
    (hne : signals ≠ [])
    (hval : ∀ s ∈ signals, s.keyKind ∈ keyKindPrecedence) :
    resolveLoop signals ∈ signals.map (fun s => s.keyKind) ∧
    (∀ s ∈ signals, slicesIndex keyKindPrecedence (resolveLoop signals) ≤
      slicesIndex keyKindPrecedence s.keyKind) ∧
    ∀ signals2 : List Signal, signals.Perm signals2 →
      resolveLoop signals2 = resolveLoop signals := by
  have hchar := resolveLoop_eq_overallVerdict signals hne hval
  refine ⟨?_, ?_, ?_⟩
  · rw [hchar]
    unfold overallVerdict
    split_ifs with h1 h2
    · obtain ⟨s, hsmem, hsk⟩ := List.any_eq_true.mp h1
      simp only [beq_iff_eq] at hsk
      exact List.mem_map.mpr ⟨s, hsmem, hsk⟩
    · obtain ⟨s, hsmem, hsk⟩ := List.any_eq_true.mp h2
      simp only [beq_iff_eq] at hsk
      exact List.mem_map.mpr ⟨s, hsmem, hsk⟩
    · obtain ⟨s, rest, rfl⟩ := List.exists_cons_of_ne_nil hne
      have hs := hval s (List.mem_cons_self _ _)
      rcases mem_prec_cases hs with h | h | h
      · exact absurd (List.any_eq_true.mpr ⟨s, List.mem_cons_self _ _, by simp [h]⟩) h1
      · exact absurd (List.any_eq_true.mpr ⟨s, List.mem_cons_self _ _, by simp [h]⟩) h2
      · exact List.mem_map.mpr ⟨s, List.mem_cons_self _ _, h⟩
  · intro s hs
    rw [hchar]
    unfold overallVerdict
    split_ifs with h1 h2
    · rcases mem_prec_cases (hval s hs) with h | h | h <;> rw [h] <;> decide
    · rcases mem_prec_cases (hval s hs) with h | h | h
      · exact absurd (List.any_eq_true.mpr ⟨s, hs, by simp [h]⟩) h1
      · rw [h]
      · rw [h]; decide
    · rcases mem_prec_cases (hval s hs) with h | h | h
      · exact absurd (List.any_eq_true.mpr ⟨s, hs, by simp [h]⟩) h1
      · exact absurd (List.any_eq_true.mpr ⟨s, hs, by simp [h]⟩) h2
      · rw [h]
  · intro signals2 hperm
    have hne2 : signals2 ≠ [] := by
      intro h
      subst h
      exact hne hperm.eq_nil
    have hval2 : ∀ s ∈ signals2, s.keyKind ∈ keyKindPrecedence := fun s hs =>
      hval s (hperm.mem_iff.mpr hs)
    rw [resolveLoop_eq_overallVerdict signals2 hne2 hval2, hchar]
    unfold overallVerdict
    rw [← perm_any _ hperm, ← perm_any _ hperm]

theorem C3_resolver_witness :
    (c3SampleSignals ≠ [] ∧ ∀ s ∈ c3SampleSignals, s.keyKind ∈ keyKindPrecedence) ∧
    (resolveLoop c3SampleSignals ∈ c3SampleSignals.map (fun s => s.keyKind) ∧
     (∀ s ∈ c3SampleSignals, slicesIndex keyKindPrecedence (resolveLoop c3SampleSignals) ≤
       slicesIndex keyKindPrecedence s.keyKind) ∧
     ∀ signals2 : List Signal, c3SampleSignals.Perm signals2 →
       resolveLoop signals2 = resolveLoop c3SampleSignals) :=
  ⟨⟨by decide, by decide⟩,
   C3_resolver_earliest_and_perm_invariant c3SampleSignals (by decide) (by decide)⟩

/-! ## C7: the impossible-kind guard -/

/-- C7: mapping origin `USER_PROVIDED` with type `SYSTEM_MANAGED` to a
muxed kind panics (never returns a value), while the three valid
origin/type combinations map to the string `origin ++ "/" ++ type`. -/
theorem C7_impossible_kind_guard :
    keyTypeAndOriginToMuxedKeyKind "SYSTEM_MANAGED" "USER_PROVIDED" =
      Except.error "Invalid key type and origin combination: USER_PROVIDED/SYSTEM_MANAGED" ∧
    keyTypeAndOriginToMuxedKeyKind "USER_MANAGED" "USER_PROVIDED" =
      Except.ok ("USER_PROVIDED" ++ "/" ++ "USER_MANAGED") ∧
    keyTypeAndOriginToMuxedKeyKind "USER_MANAGED" "GOOGLE_PROVIDED" =
      Except.ok ("GOOGLE_PROVIDED" ++ "/" ++ "USER_MANAGED") ∧
    keyTypeAndOriginToMuxedKeyKind "SYSTEM_MANAGED" "GOOGLE_PROVIDED" =
      Except.ok ("GOOGLE_PROVIDED" ++ "/" ++ "SYSTEM_MANAGED") := by
  decide

/-! ## Decomposition of the per-key checks into appended signal batches -/

lemma UPUM_mem : USER_PROVIDED_USER_MANAGED ∈ keyKindPrecedence := by decide

lemma GPUM_mem : GOOGLE_PROVIDED_USER_MANAGED ∈ keyKindPrecedence := by decide

lemma GPSM_mem : GOOGLE_PROVIDED_SYSTEM_MANAGED ∈ keyKindPrecedence := by decide

lemma checkNameGo_eq (e tn : String) (k : SAKey) (t v : String) :
    checkNameGo e tn k t v = { k with signals := k.signals ++ [nameSignal e tn t v] } := by
  unfold checkNameGo nameSignal
  split_ifs <;> rfl

lemma checkNames_eq (k : SAKey) :
    checkNames k = { k with signals := k.signals ++ namePair k.serviceAccount k.cert } := by
  unfold checkNames namePair
  rw [checkNameGo_eq, checkNameGo_eq]
  simp

lemma CheckValidityPeriod_eq (k : SAKey) :
    CheckValidityPeriod k = { k with signals := k.signals ++ [validitySignal k.cert] } := by
  unfold CheckValidityPeriod validitySignal
  dsimp only
  split_ifs <;> rfl

lemma CheckExtensions_eq (k : SAKey) :
    CheckExtensions k = { k with signals := k.signals ++ extSignals k.cert } := by
  unfold CheckExtensions extSignals
  split_ifs <;> simp

lemma checkCrypto_eq (k : SAKey) :
    checkCrypto k =
      (cryptoSignals k.cert).map fun l => { k with signals := k.signals ++ l } := by
  unfold checkCrypto cryptoSignals
  rcases hpk : k.cert.publicKey with n | _ <;>
    split_ifs <;> simp [Except.map] <;> split_ifs <;> simp

lemma check_eq (k : SAKey) :
    check k =
      (allSignals k.serviceAccount k.cert).map
        fun l => { k with signals := k.signals ++ l } := by
  unfold check allSignals
  rw [checkNames_eq, checkCrypto_eq]
  rcases h : cryptoSignals k.cert with e | cs <;>
    simp [Except.map, CheckValidityPeriod_eq, CheckExtensions_eq, h]

lemma determineKeyKind_char (k : SAKey) :
    determineKeyKind k =
      match allSignals k.serviceAccount k.cert with
      | Except.error e => Except.error e
      | Except.ok l =>
        if (k.signals ++ l).length = 0 then Except.error noSignalsPanic
        else
          Except.ok
            ({ k with signals := k.signals ++ l, keyKind := resolveLoop (k.signals ++ l) },
             resolveLoop (k.signals ++ l)) := by
  unfold determineKeyKind
  rw [check_eq]
  rcases h : allSignals k.serviceAccount k.cert with e | l <;> simp [Except.map]

lemma nameSignal_kind (e tn t v : String) :
    (nameSignal e tn t v).keyKind ∈ keyKindPrecedence := by
  unfold nameSignal
  split_ifs <;> first | exact GPUM_mem | exact GPSM_mem | exact UPUM_mem

lemma validitySignal_kind (cert : Certificate) :
    (validitySignal cert).keyKind ∈ keyKindPrecedence := by
  unfold validitySignal
  dsimp only
  split_ifs <;> first | exact GPUM_mem | exact GPSM_mem | exact UPUM_mem

lemma extSignals_kind (cert : Certificate) :
    ∀ s ∈ extSignals cert, s.keyKind ∈ keyKindPrecedence := by
  unfold extSignals
  split_ifs <;> intro s hs <;> simp at hs <;>
    first
    | (rcases hs with h | h <;> subst h <;> exact UPUM_mem)
    | (subst hs; exact UPUM_mem)

lemma forall_kind_valid (l : List Signal)
    (h : ∀ x ∈ l.map (fun s => s.keyKind), x ∈ keyKindPrecedence) :
    ∀ s ∈ l, s.keyKind ∈ keyKindPrecedence := fun _s hs => h _ (List.mem_map_of_mem _ hs)

lemma cryptoSignals_ok_kind (cert : Certificate) (l : List Signal)
    (h : cryptoSignals cert = Except.ok l) :
    ∀ s ∈ l, s.keyKind ∈ keyKindPrecedence := by
  unfold cryptoSignals at h
  rcases hpk : cert.publicKey with n | _ <;> rw [hpk] at h <;> dsimp only at h
  · split_ifs at h <;> injection h with h <;> subst h <;>
      (apply forall_kind_valid; simp <;> decide)
  · exact absurd h (by simp)

lemma cryptoSignals_error (cert : Certificate) (e : String)
    (h : cryptoSignals cert = Except.error e) : e = rsaTypeAssertionPanic := by
  unfold cryptoSignals at h
  rcases hpk : cert.publicKey with n | _ <;> rw [hpk] at h <;> dsimp only at h
  · split_ifs at h
  · injection h with h
    exact h.symm

lemma allSignals_error (sa : String) (cert : Certificate) (e : String)
    (h : allSignals sa cert = Except.error e) : e = rsaTypeAssertionPanic := by
  unfold allSignals at h
  rcases hcs : cryptoSignals cert with e2 | cs <;> rw [hcs] at h <;>
    simp [Except.map] at h
  subst h
  exact cryptoSignals_error cert e2 hcs

lemma allSignals_ok_decomp (sa : String) (cert : Certificate) (l : List Signal)
    (h : allSignals sa cert = Except.ok l) :
    ∃ cs, cryptoSignals cert = Except.ok cs ∧
      l = namePair sa cert ++ cs ++ [validitySignal cert] ++ extSignals cert := by
  unfold allSignals at h
  rcases hcs : cryptoSignals cert with e2 | cs <;> rw [hcs] at h <;>
    simp [Except.map] at h
  refine ⟨cs, rfl, ?_⟩
  simpa [List.append_assoc] using h.symm

lemma allSignals_ok_valid (sa : String) (cert : Certificate) (l : List Signal)
    (h : allSignals sa cert = Except.ok l) :
    ∀ s ∈ l, s.keyKind ∈ keyKindPrecedence := by
  obtain ⟨cs, hcs, rfl⟩ := allSignals_ok_decomp sa cert l h
  intro s hs
  simp [List.mem_append, namePair] at hs
  rcases hs with h1 | h1 | h1 | (h1 | h1)
  · subst h1; exact nameSignal_kind _ _ _ _
  · subst h1; exact nameSignal_kind _ _ _ _
  · exact cryptoSignals_ok_kind cert cs hcs s h1
  · subst h1; exact validitySignal_kind cert
  · exact extSignals_kind cert s h1

lemma allSignals_ok_length (sa : String) (cert : Certificate) (l : List Signal)
    (h : allSignals sa cert = Except.ok l) : 3 ≤ l.length := by
  obtain ⟨cs, _, rfl⟩ := allSignals_ok_decomp sa cert l h
  simp [namePair]
  omega

lemma resolveLoop_self_append (l : List Signal) (hne : l ≠ [])
    (hval : ∀ s ∈ l, s.keyKind ∈ keyKindPrecedence) :
    resolveLoop (l ++ l) = resolveLoop l := by
  have hne2 : l ++ l ≠ [] := by simp [hne]
  have hval2 : ∀ s ∈ l ++ l, s.keyKind ∈ keyKindPrecedence := by
    intro s hs
    rcases List.mem_append.mp hs with h | h <;> exact hval s h
  rw [resolveLoop_eq_overallVerdict (l ++ l) hne2 hval2,
    resolveLoop_eq_overallVerdict l hne hval]
  unfold overallVerdict
  simp [List.any_append]

/-! ## C4: the validity-period windows -/

/-- C4: for every certificate the validity-period check appends exactly
one signal — exactly one branch of the if-chain fires — and each of the
six documented windows, tested in branch order, yields its documented
kind. -/
theorem C4_validity_windows (k : SAKey) :
    ∃ s : Signal, (CheckValidityPeriod k).signals = k.signals ++ [s] ∧
      (k.cert.notAfter = defaultMaxAfter → s.keyKind = GOOGLE_PROVIDED_USER_MANAGED) ∧
      (k.cert.notAfter ≠ defaultMaxAfter →
        k.cert.notAfter - k.cert.notBefore = legacyGoogleProvidedUserManagedValidity →
        s.keyKind = GOOGLE_PROVIDED_USER_MANAGED) ∧
      (k.cert.notAfter ≠ defaultMaxAfter →
        k.cert.notAfter - k.cert.notBefore ≠ legacyGoogleProvidedUserManagedValidity →
        k.cert.notAfter - k.cert.notBefore = googleProvidedSystemManagedValidityV1 →
        s.keyKind = GOOGLE_PROVIDED_SYSTEM_MANAGED) ∧
      (k.cert.notAfter ≠ defaultMaxAfter →
        k.cert.notAfter - k.cert.notBefore ≠ legacyGoogleProvidedUserManagedValidity →
        k.cert.notAfter - k.cert.notBefore ≠ googleProvidedSystemManagedValidityV1 →
        k.cert.notAfter - k.cert.notBefore ∈ serviceAccountKeyExpiryHours →
        s.keyKind = GOOGLE_PROVIDED_USER_MANAGED) ∧
      (k.cert.notAfter ≠ defaultMaxAfter →
        k.cert.notAfter - k.cert.notBefore ≠ legacyGoogleProvidedUserManagedValidity →
        k.cert.notAfter - k.cert.notBefore ≠ googleProvidedSystemManagedValidityV1 →
        k.cert.notAfter - k.cert.notBefore ∉ serviceAccountKeyExpiryHours →
        (googleProvidedSystemManagedValidityV2Min < k.cert.notAfter - k.cert.notBefore ∧
          k.cert.notAfter - k.cert.notBefore < googleProvidedSystemManagedValidityV2Max) →
        s.keyKind = GOOGLE_PROVIDED_SYSTEM_MANAGED) ∧
      (k.cert.notAfter ≠ defaultMaxAfter →
        k.cert.notAfter - k.cert.notBefore ≠ legacyGoogleProvidedUserManagedValidity →
        k.cert.notAfter - k.cert.notBefore ≠ googleProvidedSystemManagedValidityV1 →
        k.cert.notAfter - k.cert.notBefore ∉ serviceAccountKeyExpiryHours →
        ¬(googleProvidedSystemManagedValidityV2Min < k.cert.notAfter - k.cert.notBefore ∧
          k.cert.notAfter - k.cert.notBefore < googleProvidedSystemManagedValidityV2Max) →
        s.keyKind = USER_PROVIDED_USER_MANAGED) := by
  rw [CheckValidityPeriod_eq]
  refine ⟨validitySignal k.cert, rfl, ?_, ?_, ?_, ?_, ?_, ?_⟩ <;>
    (intros; unfold validitySignal; dsimp only; split_ifs <;> simp_all)

theorem C4_validity_windows_witness :
    ∃ s : Signal,
      (CheckValidityPeriod (NewSAKey "a@b" sampleGaiaCert)).signals = [] ++ [s] ∧
      s.keyKind = GOOGLE_PROVIDED_USER_MANAGED := by
  obtain ⟨s, h0, h1, _⟩ := C4_validity_windows (NewSAKey "a@b" sampleGaiaCert)
  exact ⟨s, h0, h1 (by decide)⟩

/-! ## C8: the name check -/

lemma nameSignal_branches (e tn t v : String) :
    nameBranchProp e tn v (nameSignal e tn t v) := by
  unfold nameBranchProp nameSignal
  split_ifs <;> refine ⟨?_, ?_, ?_, ?_⟩ <;> intros <;> simp_all

lemma replaceFirstAtWithDot_split (l1 l2 : List Char) (h : '@' ∉ l1) :
    replaceFirstAtWithDot (l1 ++ '@' :: l2) = l1 ++ '.' :: l2 := by
  induction l1 with
  | nil => simp [replaceFirstAtWithDot]
  | cons c cs ih =>
    simp only [List.mem_cons, not_or] at h
    have hc : ¬(c = '@') := fun hh => h.1 hh.symm
    simp [replaceFirstAtWithDot, hc, ih h.2]

lemma replaceFirstAtWithDot_id (l : List Char) (h : '@' ∉ l) :
    replaceFirstAtWithDot l = l := by
  induction l with
  | nil => rfl
  | cons c cs ih =>
    simp only [List.mem_cons, not_or] at h
    have hc : ¬(c = '@') := fun hh => h.1 hh.symm
    simp [replaceFirstAtWithDot, hc, ih h.2]

/-- C8: the name check computes `expectedName` from the principal by
replacing only the first `@` with `.`, computes `truncatedName` as the
first 64 characters when `expectedName` is at least 64 long and the
empty string otherwise, and appends exactly two signals — one per CN
value, each following the GAIA / expected / truncated / otherwise
branch order. -/
theorem C8_name_check (k : SAKey) :
    ∃ s1 s2 : Signal,
      (checkNames k).signals = k.signals ++ [s1, s2] ∧
      nameBranchProp (stringsReplaceAtDot k.serviceAccount)
        (if 64 ≤ strLen (stringsReplaceAtDot k.serviceAccount) then
          strTake (stringsReplaceAtDot k.serviceAccount) 64 else "")
        k.cert.subject.commonName s1 ∧
      nameBranchProp (stringsReplaceAtDot k.serviceAccount)
        (if 64 ≤ strLen (stringsReplaceAtDot k.serviceAccount) then
          strTake (stringsReplaceAtDot k.serviceAccount) 64 else "")
        k.cert.issuer.commonName s2 ∧
      (∀ l1 l2 : List Char, '@' ∉ l1 →
        replaceFirstAtWithDot (l1 ++ '@' :: l2) = l1 ++ '.' :: l2) ∧
      (∀ l : List Char, '@' ∉ l → replaceFirstAtWithDot l = l) := by
  rw [checkNames_eq]
  refine ⟨nameSignal (stringsReplaceAtDot k.serviceAccount)
      (if 64 ≤ strLen (stringsReplaceAtDot k.serviceAccount) then
        strTake (stringsReplaceAtDot k.serviceAccount) 64 else "")
      "SubjectCN" k.cert.subject.commonName,
    nameSignal (stringsReplaceAtDot k.serviceAccount)
      (if 64 ≤ strLen (stringsReplaceAtDot k.serviceAccount) then
        strTake (stringsReplaceAtDot k.serviceAccount) 64 else "")
      "IssuerCN" k.cert.issuer.commonName,
    ?_, nameSignal_branches _ _ _ _, nameSignal_branches _ _ _ _,
    replaceFirstAtWithDot_split, replaceFirstAtWithDot_id⟩
  simp [namePair]

theorem C8_name_check_witness :
    ∃ s1 s2 : Signal,
      (checkNames (NewSAKey "a@b" sampleGaiaCert)).signals = [] ++ [s1, s2] ∧
      s1.keyKind = GOOGLE_PROVIDED_USER_MANAGED ∧
      s2.keyKind = USER_PROVIDED_USER_MANAGED := by
  obtain ⟨s1, s2, h0, h1, h2, _, _⟩ := C8_name_check (NewSAKey "a@b" sampleGaiaCert)
  refine ⟨s1, s2, h0, ?_, ?_⟩
  · exact h1.1 (by decide)
  · exact h2.2.2.2 (by decide) (by decide) (by decide)

/-! ## C5: classification always yields signals; the resolver's empty branch is dead -/

/-- C5: kind determination either stops at the crypto check's
type-assertion panic, or returns successfully with at least one signal
(the validity check always contributes one); the `noSignalsPanic`
branch of the precedence resolver is unreachable on classification's
output. -/
theorem C5_no_empty_signal_list (sa : String) (cert : Certificate) :
    determineKeyKind (NewSAKey sa cert) = Except.error rsaTypeAssertionPanic ∨
    ∃ p : SAKey × String, determineKeyKind (NewSAKey sa cert) = Except.ok p ∧
      1 ≤ p.1.signals.length := by
  rw [determineKeyKind_char]
  dsimp only [NewSAKey]
  rcases h : allSignals sa cert with e | l
  · left
    dsimp only
    rw [allSignals_error sa cert e h]
  · right
    have hlen := allSignals_ok_length sa cert l h
    have hne : ¬(([] ++ l : List Signal).length = 0) := by
      simp only [List.nil_append]
      omega
    dsimp only
    rw [if_neg hne]
    refine ⟨_, rfl, ?_⟩
    dsimp only
    simp only [List.nil_append]
    omega

/-! ## C1: the crypto check on a non-RSA certificate -/

/-- C1 (code bug): on a certificate whose public-key algorithm is not
RSA, `checkCrypto` reaches the unchecked type assertion
`.(*rsa.PublicKey)` and panics instead of skipping the
bit-length-dependent branches, so kind determination crashes rather
than returning a signal list. -/
theorem C1_non_rsa_crypto_check_panics :
    checkCrypto (NewSAKey "x@y" sampleEcdsaCert) = Except.error rsaTypeAssertionPanic ∧
    determineKeyKind (NewSAKey "x@y" sampleEcdsaCert) =
      Except.error rsaTypeAssertionPanic := by
  decide

/-! ## C9: purity and redundant invocation of kind determination -/

/-- C9 (counterexample): re-invoking `determineKeyKind` on the same key
object does not leave the signal list unchanged — the second invocation
appends a second copy of every signal. -/
theorem C9_redundant_invocation_changes_signals :
    ((determineKeyKind (NewSAKey "x@y" sampleSystemManagedCert)).bind
        fun p => determineKeyKind p.1).map (fun p => p.1.signals) ≠
      (determineKeyKind (NewSAKey "x@y" sampleSystemManagedCert)).map
        (fun p => p.1.signals) := by
  decide

/-- C9 (amended): kind determination reads only its receiver; a repeat
invocation on the same key object returns the same resolved kind, but
doubles the signal list rather than leaving it unchanged. -/
theorem C9_kind_stable_signals_doubled (sa : String) (cert : Certificate)
    (k1 : SAKey) (r1 : String)
    (h : determineKeyKind (NewSAKey sa cert) = Except.ok (k1, r1)) :
    ∃ k2 : SAKey, determineKeyKind k1 = Except.ok (k2, r1) ∧
      k2.signals = k1.signals ++ k1.signals := by
  rw [determineKeyKind_char] at h
  dsimp only [NewSAKey] at h
  rcases ha : allSignals sa cert with e | l <;> rw [ha] at h <;> dsimp only at h
  · exact absurd h (by simp)
  · split_ifs at h with hzero
    injection h with hpair
    injection hpair with hk hr
    subst hk
    subst hr
    have hval := allSignals_ok_valid sa cert l ha
    have hlen := allSignals_ok_length sa cert l ha
    have hlne : l ≠ [] := by
      intro hl
      subst hl
      simp at hlen
    have hresolve : resolveLoop (l ++ l) = resolveLoop l :=
      resolveLoop_self_append l hlne hval
    refine ⟨⟨sa, cert, l ++ l, resolveLoop (l ++ l)⟩, ?_, by simp⟩
    rw [determineKeyKind_char]
    dsimp only
    rw [ha]
    dsimp only
    simp only [List.nil_append]
    have hll : ¬((l ++ l).length = 0) := by
      have := List.length_append l l
      omega
    rw [if_neg hll, hresolve]

/-! ## Lemmas about the fan-out orchestrator -/

lemma errorsJoin_none (errs : List (Option String)) (h : ∀ e ∈ errs, e = none) :
    errorsJoin errs = none := by
  unfold errorsJoin
  rw [List.filterMap_eq_nil_iff.mpr (by simpa using h)]

lemma errorsJoin_some_of_mem (errs : List (Option String)) (e : String)
    (h : some e ∈ errs) : ∃ j, errorsJoin errs = some j := by
  unfold errorsJoin
  rcases hf : errs.filterMap id with _ | ⟨a, rest⟩
  · exact absurd (List.filterMap_eq_nil_iff.mp hf (some e) h) (by simp)
  · exact ⟨_, rfl⟩

lemma parllelMap_all_ok {I O : Type} (items : List I) (f : I → O × Option String)
    (h : ∀ x ∈ items, (f x).2 = none) :
    parllelMap items f = Except.ok (items.map fun x => (f x).1) := by
  unfold parllelMap
  dsimp only
  rw [errorsJoin_none _ (by simpa using h)]

lemma parllelMap_ok_val {I O : Type} (items : List I) (f : I → O × Option String)
    (res : List O) (h : parllelMap items f = Except.ok res) :
    res = items.map fun x => (f x).1 := by
  unfold parllelMap at h
  dsimp only at h
  rcases hj : errorsJoin (items.map fun x => (f x).2) with _ | e <;> rw [hj] at h
  · injection h with h
    exact h.symm
  · exact absurd h (by simp)

lemma parllelMap_error_of_task {I O : Type} (items : List I) (f : I → O × Option String)
    (x : I) (e : String) (hx : x ∈ items) (he : (f x).2 = some e) :
    ∃ j, parllelMap items f = Except.error j := by
  unfold parllelMap
  dsimp only
  obtain ⟨j, hj⟩ := errorsJoin_some_of_mem (items.map fun x => (f x).2) e
    (by exact List.mem_map.mpr ⟨x, hx, he⟩)
  rw [hj]
  exact ⟨j, rfl⟩

lemma parllelMap_congr {I O : Type} (items : List I) (f g : I → O × Option String)
    (h : ∀ x ∈ items, f x = g x) : parllelMap items f = parllelMap items g := by
  unfold parllelMap
  have h1 : (items.map fun x => (f x).1) = items.map fun x => (g x).1 :=
    List.map_congr_left fun x hx => by rw [h x hx]
  have h2 : (items.map fun x => (f x).2) = items.map fun x => (g x).2 :=
    List.map_congr_left fun x hx => by rw [h x hx]
  dsimp only
  rw [h1, h2]

lemma fetchObservedTask_err (fetch : String → Except String ServiceAccountCerts)
    (sa : String) : (fetchObservedTask fetch sa).2 = none := by
  unfold fetchObservedTask
  rcases fetch sa <;> rfl

lemma observedTask_results (fetch : String → Except String ServiceAccountCerts)
    (ids : List String) :
    (ids.map fun sa => (fetchObservedTask fetch sa).1.1) =
      ids.map fun sa =>
        match fetch sa with
        | Except.ok res => res
        | Except.error _ => [] := by
  refine List.map_congr_left fun sa _ => ?_
  unfold fetchObservedTask
  rcases fetch sa <;> rfl

lemma observedTask_markers (fetch : String → Except String ServiceAccountCerts)
    (ids : List String) :
    (ids.filterMap fun sa => (fetchObservedTask fetch sa).1.2) =
      ids.filter fun sa =>
        match fetch sa with
        | Except.ok _ => false
        | Except.error _ => true := by
  induction ids with
  | nil => rfl
  | cons a rest ih =>
    rw [List.filterMap_cons, List.filter_cons]
    have h1 : (fetchObservedTask fetch a).1.2 =
        (match fetch a with
          | Except.ok _ => none
          | Except.error _ => some a) := by
      unfold fetchObservedTask
      rcases fetch a <;> rfl
    rw [h1]
    rcases hfa : fetch a with e | r <;> simp [hfa, ih]

/-! ## C2: isolation of public-certificate fetch failures -/

/-- C2: for any batch of principals, the public fetch phase returns no
error; every principal whose fetch failed (and only those) lands in the
bad-principal list, and every other principal's slot holds its fetched
certificate map (failed slots hold the empty result). -/
theorem C2_public_fetch_isolation
    (fetch : String → Except String ServiceAccountCerts) (ids : List String) :
    FetchObservedKeys fetch (NewKeyCollection ids) =
      Except.ok
        { serviceAccountIDs := ids
          observedKeys := ids.map fun sa =>
            match fetch sa with
            | Except.ok res => res
            | Except.error _ => []
          groundTruthKeys := []
          badSAs := ids.filter fun sa =>
            match fetch sa with
            | Except.ok _ => false
            | Except.error _ => true } := by
  unfold FetchObservedKeys
  dsimp only [NewKeyCollection]
  rw [parllelMap_all_ok _ _ fun sa _ => fetchObservedTask_err fetch sa]
  dsimp only
  simp only [Function.comp_def, List.map_map, List.filterMap_map, List.nil_append]
  rw [observedTask_results, observedTask_markers]

/-! ## C6: ground-truth fetch skips bad principals and propagates errors -/

/-- C6: in ground-truth mode, a principal already marked bad is skipped
with an empty result and without calling the API (the phase's outcome
does not depend on the collaborator's behaviour at bad principals), and
any task error — which can only arise at a non-bad principal — makes
the whole phase return an error. -/
theorem C6_ground_truth_skip_and_propagate
    (getKeys getKeys2 : String → Except String ServiceAccountKeys)
    (k : KeyCollection) :
    ((∀ sa ∈ k.serviceAccountIDs, sa ∉ k.badSAs → getKeys2 sa = getKeys sa) →
      FetchGroundTruthKeys getKeys2 k = FetchGroundTruthKeys getKeys k) ∧
    (∀ k1, FetchGroundTruthKeys getKeys k = Except.ok k1 →
      k1.groundTruthKeys = k.serviceAccountIDs.map fun sa =>
        if k.badSAs.contains sa then []
        else
          match getKeys sa with
          | Except.ok res => res
          | Except.error _ => []) ∧
    ((∃ sa ∈ k.serviceAccountIDs, sa ∉ k.badSAs ∧ ∃ e, getKeys sa = Except.error e) →
      ∃ e2, FetchGroundTruthKeys getKeys k = Except.error e2) := by
  refine ⟨?_, ?_, ?_⟩
  · intro hagree
    unfold FetchGroundTruthKeys
    dsimp only
    rw [parllelMap_congr _ _ _ fun sa hsa => ?_]
    unfold fetchGroundTruthTask
    by_cases hb : k.badSAs.contains sa
    · rw [if_pos hb, if_pos hb]
    · rw [if_neg hb, if_neg hb, hagree sa hsa (by simpa using hb)]
  · intro k1 h
    unfold FetchGroundTruthKeys at h
    dsimp only at h
    rcases hpm : parllelMap k.serviceAccountIDs (fetchGroundTruthTask getKeys k.badSAs)
      with e | res <;> rw [hpm] at h
    · exact absurd h (by simp)
    · injection h with h
      rw [← h]
      dsimp only
      rw [parllelMap_ok_val _ _ _ hpm]
      refine List.map_congr_left fun sa _ => ?_
      unfold fetchGroundTruthTask
      by_cases hb : k.badSAs.contains sa
      · rw [if_pos hb, if_pos hb]
      · rw [if_neg hb, if_neg hb]
        rcases getKeys sa <;> rfl
  · rintro ⟨sa, hsa, hnb, e, he⟩
    unfold FetchGroundTruthKeys
    dsimp only
    have htask : (fetchGroundTruthTask getKeys k.badSAs sa).2 = some e := by
      unfold fetchGroundTruthTask
      rw [if_neg (by simpa using hnb), he]
    obtain ⟨j, hj⟩ := parllelMap_error_of_task _ _ sa e hsa htask
    rw [hj]
    exact ⟨_, rfl⟩

lemma exists_ok_of_isOk {E A : Type} (x : Except E A) (h : x.isOk = true) :
    ∃ a, x = Except.ok a := by
  rcases x with e | a
  · exact absurd h (fun hh => by injection hh)
  · exact ⟨a, rfl⟩

theorem C6_ground_truth_witness :
    (FetchGroundTruthKeys sampleGetKeys c6SampleCollection =
      FetchGroundTruthKeys sampleGetKeys c6SampleCollection) ∧
    (∃ k1, FetchGroundTruthKeys sampleGetKeys c6OkCollection = Except.ok k1 ∧
      k1.groundTruthKeys = c6OkCollection.serviceAccountIDs.map fun sa =>
        if c6OkCollection.badSAs.contains sa then []
        else
          match sampleGetKeys sa with
          | Except.ok res => res
          | Except.error _ => []) ∧
    (∃ e2, FetchGroundTruthKeys sampleGetKeys c6SampleCollection = Except.error e2) := by
  refine ⟨?_, ?_, ?_⟩
  · exact (C6_ground_truth_skip_and_propagate sampleGetKeys sampleGetKeys
      c6SampleCollection).1 fun _sa _ _ => rfl
  · have hisok : (FetchGroundTruthKeys sampleGetKeys c6OkCollection).isOk = true := by
      decide
    obtain ⟨k1, h⟩ := exists_ok_of_isOk _ hisok
    exact ⟨k1, h, (C6_ground_truth_skip_and_propagate sampleGetKeys sampleGetKeys
      c6OkCollection).2.1 k1 h⟩
  · exact (C6_ground_truth_skip_and_propagate sampleGetKeys sampleGetKeys
      c6SampleCollection).2.2
      ⟨"fail1", by decide, by decide, "googleapi: quota exceeded", by decide⟩

/-! ## C10: all-or-nothing parsing of one principal's certificates -/

lemma buildCerts_error (pd : String → Option (PemBlock × List Nat))
    (pc : List Nat → Except String Certificate)
    (keys : List (String × String)) (kv : String × String) (hkv : kv ∈ keys)
    (e : String) (he : processPemKey pd pc kv.2 = Except.error e) :
    ∀ acc, ∃ e2, buildCerts pd pc keys acc = Except.error e2 := by
  induction keys with
  | nil => exact absurd hkv (by simp)
  | cons hd rest ih =>
    intro acc
    rcases hd with ⟨kid, v⟩
    rcases hp : processPemKey pd pc v with e1 | cert
    · exact ⟨e1, by simp [buildCerts, hp]⟩
    · have hm : kv ∈ rest := by
        rcases List.mem_cons.mp hkv with rfl | hm
        · rw [hp] at he
          exact absurd he (by simp)
        · exact hm
      obtain ⟨e2, h2⟩ := ih hm (acc ++ [(kid, cert)])
      exact ⟨e2, by simp [buildCerts, hp, h2]⟩

lemma buildCerts_ok (pd : String → Option (PemBlock × List Nat))
    (pc : List Nat → Except String Certificate)
    (keys : List (String × String))
    (h : ∀ kv ∈ keys, ∃ cert, processPemKey pd pc kv.2 = Except.ok cert) :
    ∀ acc, ∃ m : ServiceAccountCerts,
      buildCerts pd pc keys acc = Except.ok (acc ++ m) ∧
      m.length = keys.length ∧
      ∀ kv ∈ keys, ∃ cert, (kv.1, cert) ∈ m ∧
        processPemKey pd pc kv.2 = Except.ok cert := by
  induction keys with
  | nil =>
    intro acc
    exact ⟨[], by simp [buildCerts], rfl, by simp⟩
  | cons hd rest ih =>
    intro acc
    rcases hd with ⟨kid, v⟩
    obtain ⟨cert, hc⟩ := h ⟨kid, v⟩ (by simp)
    obtain ⟨m2, hb, hlen, hmem⟩ :=
      ih (fun kv hkv => h kv (List.mem_cons_of_mem _ hkv)) (acc ++ [(kid, cert)])
    refine ⟨(kid, cert) :: m2, ?_, by simp [hlen], ?_⟩
    · simp only [buildCerts, hc]
      rw [hb]
      simp
    · intro kv hkv
      rcases List.mem_cons.mp hkv with rfl | hm
      · exact ⟨cert, by simp, hc⟩
      · obtain ⟨c2, hc2m, hc2⟩ := hmem kv hm
        exact ⟨c2, by simp [hc2m], hc2⟩

/-- C10: parsing one principal's key map is all-or-nothing — if any
entry's PEM value fails (no block, trailing bytes, wrong block type,
headers, or certificate parse failure) the whole fetch returns an error
carrying no certificate map, and if every entry succeeds the full map
is returned. -/
theorem C10_fetch_all_or_nothing
    (pemDecode : String → Option (PemBlock × List Nat))
    (parseCertificate : List Nat → Except String Certificate)
    (keys : List (String × String)) :
    ((∃ kv ∈ keys, ∃ e, processPemKey pemDecode parseCertificate kv.2 = Except.error e) →
      ∃ e2, getServiceAccountKeyCerts pemDecode parseCertificate keys = Except.error e2) ∧
    ((∀ kv ∈ keys, ∃ cert, processPemKey pemDecode parseCertificate kv.2 = Except.ok cert) →
      ∃ m : ServiceAccountCerts,
        getServiceAccountKeyCerts pemDecode parseCertificate keys = Except.ok m ∧
        m.length = keys.length ∧
        ∀ kv ∈ keys, ∃ cert, (kv.1, cert) ∈ m ∧
          processPemKey pemDecode parseCertificate kv.2 = Except.ok cert) := by
  constructor
  · rintro ⟨kv, hkv, e, he⟩
    obtain ⟨e2, h2⟩ := buildCerts_error pemDecode parseCertificate keys kv hkv e he []
    exact ⟨e2, h2⟩
  · intro hall
    obtain ⟨m, hb, hlen, hmem⟩ := buildCerts_ok pemDecode parseCertificate keys hall []
    exact ⟨m, by simpa [getServiceAccountKeyCerts] using hb, hlen, hmem⟩

theorem C10_fetch_all_or_nothing_witness :
    ((("k2", "trailing") : String × String) ∈
        ([("k1", "goodpem"), ("k2", "trailing")] : List (String × String)) ∧
      processPemKey samplePemDecode sampleParseCertificate "trailing" =
        Except.error "error: Extra data after PEM block") ∧
    ∃ e2, getServiceAccountKeyCerts samplePemDecode sampleParseCertificate
      [("k1", "goodpem"), ("k2", "trailing")] = Except.error e2 :=
  ⟨⟨by decide, by decide⟩,
   (C10_fetch_all_or_nothing samplePemDecode sampleParseCertificate
     [("k1", "goodpem"), ("k2", "trailing")]).1
     ⟨("k2", "trailing"), by decide, "error: Extra data after PEM block", by decide⟩⟩

theorem C9_kind_stable_signals_doubled_witness :
    ∃ k1 r1 k2, determineKeyKind (NewSAKey "u@v" sampleSystemManagedCert) =
        Except.ok (k1, r1) ∧
      determineKeyKind k1 = Except.ok (k2, r1) ∧
      k2.signals = k1.signals ++ k1.signals := by
  have hisok : (determineKeyKind (NewSAKey "u@v" sampleSystemManagedCert)).isOk = true := by
    decide
  obtain ⟨⟨k1, r1⟩, h⟩ := exists_ok_of_isOk _ hisok
  obtain ⟨k2, h2, h3⟩ := C9_kind_stable_signals_doubled "u@v" sampleSystemManagedCert k1 r1 h
  exact ⟨k1, r1, k2, h, h2, h3⟩

end SAKeyChecker
